import Mathlib

set_option maxRecDepth 4000

attribute [local semireducible] Rat.add Rat.mul Rat.sub Rat.inv

/-!
Verification of the GrossProfit-Dashboard metrics pipeline.

This file gives a shallow embedding of `process_data` (src/data_processor.py)
and of the stability-metric window of the export adapter
(src/gross_profit_metrics_exporter.py), and settles the frozen claims
about them.

Modelling conventions, written once here and referenced below:

* pandas/numpy floats are modelled as exact rationals (`ℚ`); `NaN` (the
  missing value) is a separate constructor of `PyVal`.
* pandas `Timestamp`s (the actual table's date column headers, produced by
  `load_data` via `pd.to_datetime`) are modelled at day resolution by
  `Date` (year, month, day); comparison of timestamps is lexicographic.
  `dateutil.relativedelta` month/year subtraction keeps the day-of-month,
  clamping to the length of the target month, as `subMonths` does.
* Department-name cells are modelled as strings (the join at
  data_processor.py:144 is exact equality on those values).
* A pandas column carries a dtype.  A column whose dtype is numeric
  (`pd.api.types.is_numeric_dtype`, data_processor.py:113) holds only
  numbers and NaN, never strings; the embedding keeps one `numeric : Bool`
  flag per non-key target column and applies the text-to-number coercion
  (`coerceNum`) unconditionally when *reading* a target value, which agrees
  with the source on every dtype-consistent table because `coerceNum` is
  the identity on numbers and NaN.  The flag decides only whether the
  in-place write-back at data_processor.py:115-118 happens.
* `process_data` returns `none` for the uncaught `IndexError` raised by
  `target_df.columns[0]` / `actual_df.columns[0]` (data_processor.py:82-83)
  when a table has zero columns; every other failure path returns empty
  tables, as the source does.
* The in-place mutation of `target_df` is modelled by the `targetAfter`
  field of the result.
-/

namespace GP

/-- A pandas cell value: a number, a text cell, or NaN (missing). -/
inductive PyVal where
  | num (q : ℚ)
  | str (s : String)
  | nan
deriving DecidableEq, Repr

/-- A calendar date (pandas Timestamp at day resolution). -/
structure Date where
  y : Int
  m : Nat
  d : Nat
deriving DecidableEq, Repr

/-- Timestamp order: lexicographic on (year, month, day). -/
@[reducible] def dateLe (a b : Date) : Prop :=
  a.y < b.y ∨ (a.y = b.y ∧ (a.m < b.m ∨ (a.m = b.m ∧ a.d ≤ b.d)))

def isLeap (y : Int) : Bool :=
  (y % 4 == 0 && y % 100 != 0) || y % 400 == 0

def daysInMonth (y : Int) (m : Nat) : Nat :=
  if m == 2 then (if isLeap y then 29 else 28)
  else if m == 4 || m == 6 || m == 9 || m == 11 then 30 else 31

/-- `dateutil.relativedelta` subtraction of `k` months: the day-of-month is
kept, clamped to the length of the target month (so minus 12 months also
models `relativedelta(years=1)`, including the Feb-29 clamp). -/
def subMonths (dt : Date) (k : Nat) : Date :=
  let total : Int := dt.y * 12 + ((dt.m : Int) - 1) - (k : Int)
  let y2 : Int := total / 12
  let m2 : Nat := (total % 12).toNat + 1
  ⟨y2, m2, min dt.d (daysInMonth y2 m2)⟩

/-- A column header of the actual table after `load_data`: either a label
kept as text or a header parsed to a Timestamp. -/
inductive Header where
  | label (s : String)
  | date (dt : Date)
deriving DecidableEq, Repr

/-- The target table: all column headers (index 0 is the department
column), one numeric-dtype flag per column after index 0, and rows as
(department value, cells for the columns after index 0). -/
structure TargetTable where
  headers : List String
  numeric : List Bool
  rows : List (String × List PyVal)
deriving DecidableEq, Repr

/-- The actual table: all column headers (index 0 is the department
column) and rows as (department value, cells for the columns after
index 0). -/
structure ActualTable where
  headers : List Header
  rows : List (String × List PyVal)
deriving DecidableEq, Repr

/-- One row of the chart output: the dict appended at
data_processor.py:166-172. -/
structure Rec where
  dept : String
  month : Date
  actual : ℚ
  target : ℚ
  rate : ℚ
deriving DecidableEq, Repr

/-- One row of the summary output (the dict appended at
data_processor.py:251-259).  `recentActual`, `curFyActual` and
`lastFyActual` are the intermediates of lines 204, 231 and 235, carried
so that the claims about them can be stated; the source drops them after
use. -/
structure SummaryRow where
  dept : String
  recentRate : Option ℚ
  fyAvg : Option ℚ
  sixAvg : Option ℚ
  note : String
  share : ℚ
  yoy : Option ℚ
  recentActual : ℚ
  curFyActual : ℚ
  lastFyActual : ℚ
deriving DecidableEq, Repr

/-- The outcome of `process_data`: the two returned tables plus the state
of the (possibly mutated in place) target table after the call. -/
structure ProcResult where
  summary : List SummaryRow
  chart : List Rec
  targetAfter : TargetTable
deriving DecidableEq, Repr

/-! ### Lenient numeric parsing (`pd.to_numeric` / `float`)

Python string operations are modelled on the character lists underlying
Lean strings (structurally recursive, unlike the byte-position-based
`String` library functions), which is faithful because Python strings are
character sequences. -/

/-- Strip ASCII and full-width thousands separators
(`.str.replace(',','').str.replace('，','')`, data_processor.py:116;
`replace` removes every occurrence). -/
def stripSeps (cs : List Char) : List Char :=
  cs.filter (fun c => !(c == ',' || c == '，'))

def digitsVal (cs : List Char) : Nat :=
  cs.foldl (fun a c => 10 * a + (c.toNat - '0'.toNat)) 0

/-- Split on the decimal point. -/
def splitOnDot : List Char → List (List Char)
  | [] => [[]]
  | c :: rest =>
    match splitOnDot rest with
    | [] => [[]]
    | h :: t => if c = '.' then [] :: h :: t else (c :: h) :: t

/-- Parse a plain decimal literal with optional sign and fraction part.
This is the fragment of Python `float` / `pd.to_numeric` needed by the
tables under study (no exponents, no `inf`/`nan` literals). -/
def parseDec (cs : List Char) : Option ℚ :=
  let (sgn, body) : ℚ × List Char :=
    match cs with
    | '-' :: rest => (-1, rest)
    | '+' :: rest => (1, rest)
    | _ => (1, cs)
  match splitOnDot body with
  | [ip] =>
    if !ip.isEmpty && ip.all Char.isDigit then
      some (sgn * (digitsVal ip : ℚ))
    else none
  | [ip, fp] =>
    if (!ip.isEmpty || !fp.isEmpty) && ip.all Char.isDigit
        && fp.all Char.isDigit then
      some (sgn * ((digitsVal ip : ℚ)
        + (digitsVal fp : ℚ) / (10 : ℚ) ^ fp.length))
    else none
  | _ => none

/-- `pd.to_numeric(col.astype(str)..., errors='coerce')` cellwise
(data_processor.py:115-118): numbers and NaN survive, text parses or
becomes NaN. -/
def coerceNum : PyVal → PyVal
  | .num q => .num q
  | .nan => .nan
  | .str s =>
    match parseDec (stripSeps s.data) with
    | some q => .num q
    | none => .nan

/-- Reading an actual cell (data_processor.py:155-162): NaN is skipped,
text is stripped of separators and parsed with `float` (skip on failure),
numbers pass through. -/
def actualNum : PyVal → Option ℚ
  | .num q => some q
  | .nan => none
  | .str s => parseDec (stripSeps s.data)

/-! ### Column role resolution -/

def startsWithL : List Char → List Char → Bool
  | _, [] => true
  | [], _ :: _ => false
  | h :: hs, p :: ps => h == p && startsWithL hs ps

/-- Substring test (Python `pat in s`), at character level. -/
def containsL : List Char → List Char → Bool
  | [], pat => pat.isEmpty
  | h :: hs, pat => startsWithL (h :: hs) pat || containsL hs pat

/-- data_processor.py:96: the header, lower-cased (`str.lower`; ASCII
suffices for the keywords involved), contains a target/goal keyword. -/
def isTargetHeader (h : String) : Bool :=
  let ls := h.data.map Char.toLower
  containsL ls "目標".data || containsL ls "target".data
    || containsL ls "goal".data

/-- data_processor.py:92-104: scan columns 1.. for a keyword match, fall
back to column 1; `none` (→ empty return) iff the table has fewer than 2
columns.  The returned index is relative to the columns after index 0. -/
def chooseTargetIdx (t : TargetTable) : Option Nat :=
  match t.headers.drop 1 with
  | [] => none
  | hs => some ((hs.findIdx? (fun h => isTargetHeader h)).getD 0)

/-- The in-place coercion of the chosen target column
(data_processor.py:113-118): only runs when the column dtype is not
numeric; afterwards the column dtype is numeric. -/
def mutateTarget (t : TargetTable) (j : Nat) : TargetTable :=
  if t.numeric.getD j false then t
  else
    { headers := t.headers
      numeric := t.numeric.set j true
      rows := t.rows.map (fun rc =>
        (rc.1, rc.2.mapIdx (fun i v => if i = j then coerceNum v else v))) }

/-- Month sort key used at data_processor.py:123-124: `(x.year, x.month)`
(the day is not part of the key). -/
def monthIdx (dt : Date) : Int := dt.y * 12 + ((dt.m : Int) - 1)

@[reducible] def rMonth (a b : Date × Nat) : Prop :=
  monthIdx a.1 ≤ monthIdx b.1

/-- data_processor.py:123-124: the date columns of the actual table (with
their column positions), sorted ascending by (year, month); Python
`sorted` is stable, as `List.insertionSort` is. -/
def dateCols (a : ActualTable) : List (Date × Nat) :=
  (a.headers.enum.filterMap (fun hi =>
    match hi.2 with
    | .date dt => some (dt, hi.1)
    | .label _ => none)).insertionSort rMonth

/-- Cell of an actual row at an absolute column position: position 0 is
the department column, the rest index into the stored cells (a missing
position reads as NaN, matching `Series.get` returning `None`). -/
def getCellFull (row : String × List PyVal) (i : Nat) : PyVal :=
  if i = 0 then .str row.1 else row.2.getD (i - 1) .nan

/-- Effective target value of a row at chosen column `j`.  `coerceNum` is
applied unconditionally; see the dtype convention in the header comment. -/
def targetValAt (cells : List PyVal) (j : Nat) : PyVal :=
  coerceNum (cells.getD j .nan)

/-- data_processor.py:139-172, one target row: find the actual rows with
the same department (skip if none), keep the first, and if the target
value is a number > 0, emit one record per date column whose actual cell
reads as a number. -/
def recsForRow (a : ActualTable) (dcols : List (Date × Nat)) (j : Nat)
    (row : String × List PyVal) : List Rec :=
  match (a.rows.filter (fun ar => decide (ar.1 = row.1))).head? with
  | none => []
  | some arow =>
    match targetValAt row.2 j with
    | .num tv =>
      if 0 < tv then
        dcols.filterMap (fun di =>
          match actualNum (getCellFull arow di.2) with
          | some av => some ⟨row.1, di.1, av, tv, av / tv * 100⟩
          | none => none)
      else []
    | _ => []

/-- The whole join-and-rate loop (data_processor.py:139-172). -/
def buildChart (t : TargetTable) (a : ActualTable) (j : Nat)
    (dcols : List (Date × Nat)) : List Rec :=
  t.rows.flatMap (recsForRow a dcols j)

/-! ### Summary computation -/

/-- `chart_df['月'].max()` (data_processor.py:187): maximum by full
timestamp order. -/
def latestMonth : List Rec → Date
  | [] => ⟨0, 1, 1⟩
  | r :: rs =>
    rs.foldl (fun acc x => if dateLe acc x.month then x.month else acc) r.month

def sumActual (l : List Rec) : ℚ := (l.map (·.actual)).sum

/-- data_processor.py:191-192: total actual over the records at the latest
month. -/
def totalRecent (c : List Rec) (latest : Date) : ℚ :=
  sumActual (c.filter (fun r => decide (r.month = latest)))

/-- Python string comparison: lexicographic by code point, a proper
prefix ordering before longer strings. -/
def charListLe : List Char → List Char → Bool
  | [], _ => true
  | _ :: _, [] => false
  | c :: cs, d :: ds => if c = d then charListLe cs ds else decide (c < d)

@[reducible] def rStr (a b : String) : Prop :=
  charListLe a.data b.data = true

/-- `groupby('診療科')` group keys: distinct departments in ascending
string order (pandas `groupby` sorts keys by default). -/
def sortedDepts (c : List Rec) : List String :=
  ((c.map (·.dept)).dedup).insertionSort rStr

/-- `group.sort_values('月')` order (data_processor.py:199). -/
@[reducible] def rRec (a b : Rec) : Prop := dateLe a.month b.month

def meanQ (l : List ℚ) : ℚ := l.sum / l.length

/-- data_processor.py:198-259: the per-department summary row, given
`today`, the global latest month and the latest-month total. -/
def mkSummary (today latest : Date) (total : ℚ) (dept : String)
    (g0 : List Rec) : SummaryRow :=
  let g := g0.insertionSort rRec
  let recentRows := g.filter (fun r => decide (r.month = latest))
  let recentRate : Option ℚ := recentRows.head?.map (·.rate)
  let recentActual : ℚ := (recentRows.head?.map (·.actual)).getD 0
  let share : ℚ := if 0 < total then recentActual / total * 100 else 0
  let fyStartYear : Int := if 4 ≤ today.m then today.y else today.y - 1
  let fyStart : Date := ⟨fyStartYear, 4, 1⟩
  let fyRecs := g.filter (fun r => decide (dateLe fyStart r.month))
  let fyAvg : Option ℚ :=
    if fyRecs.isEmpty then none else some (meanQ (fyRecs.map (·.rate)))
  let sixAgo := subMonths latest 5
  let sixRecs := g.filter (fun r =>
    decide (dateLe sixAgo r.month) && decide (dateLe r.month latest))
  let sixAvg : Option ℚ :=
    if sixRecs.isEmpty then none else some (meanQ (sixRecs.map (·.rate)))
  let lastFyStart : Date := ⟨fyStartYear - 1, 4, 1⟩
  let lastFyEnd := subMonths latest 12
  let curFyActual : ℚ := sumActual fyRecs
  let lastFyRecs := g.filter (fun r =>
    decide (dateLe lastFyStart r.month) && decide (dateLe r.month lastFyEnd))
  let lastFyActual : ℚ := sumActual lastFyRecs
  let yoy : Option ℚ :=
    if 0 < lastFyActual then some (curFyActual / lastFyActual * 100) else none
  let note : String :=
    match recentRate, sixAvg with
    | some r, some s6 =>
      if 5 < r - s6 then "改善傾向 👍"
      else if r - s6 < -5 then "悪化傾向 👎" else "横ばい 😐"
    | _, _ => ""
  ⟨dept, recentRate, fyAvg, sixAvg, note, share, yoy, recentActual,
    curFyActual, lastFyActual⟩

/-- The summary rows in groupby order, before the final sort. -/
def summaryPre (c : List Rec) (today : Date) : List SummaryRow :=
  (sortedDepts c).map (fun dn =>
    mkSummary today (latestMonth c) (totalRecent c (latestMonth c)) dn
      (c.filter (fun r => decide (r.dept = dn))))

/-- Sort key of the final sort (the `直近月達成率` column; NaN rows are
segregated before sorting, so the default is never compared). -/
def rateKey (s : SummaryRow) : ℚ := s.recentRate.getD 0

@[reducible] def rRate (a b : SummaryRow) : Prop := rateKey a ≤ rateKey b

instance : IsTotal SummaryRow rRate :=
  ⟨fun a b => le_total (rateKey a) (rateKey b)⟩

instance : IsTrans SummaryRow rRate :=
  ⟨fun _ _ _ => le_trans⟩

instance : IsTotal Date dateLe :=
  ⟨fun a b => by unfold dateLe; omega⟩

instance : IsTrans Date dateLe :=
  ⟨fun a b c hab hbc => by unfold dateLe at *; omega⟩

/-- `summary_df.sort_values(by='直近月達成率', ascending=False,
na_position='last')` (data_processor.py:264).  pandas sorts a single
descending column with `pandas.core.sorting.nargsort`, which REVERSES
the non-NaN values and their positions first, arg-sorts that reversed
array ascending, reverses the resulting indexer again, and appends the
NaN positions in original order — a double reversal whose effect is
that equal keys keep their original relative order whenever the
ascending kernel is stable.  The ascending arg-sort is numpy quicksort,
which is insertion sort — hence stable — for the small partitions
(< 16 elements) this dashboard produces; the embedding mirrors the
double reversal around a stable ascending sort, exact for up to 16
departments. -/
def pandasSortDesc (l : List SummaryRow) : List SummaryRow :=
  (((l.filter (fun s => s.recentRate.isSome)).reverse).insertionSort
      rRate).reverse
    ++ l.filter (fun s => !s.recentRate.isSome)

/-! ### The pipeline -/

/-- src/data_processor.py `process_data`.  `none` models the uncaught
`IndexError` on a zero-column input table (lines 82-83); otherwise the
guards of lines 106, 126 and 177 return empty tables.  The join loop
reads the target values after the in-place coercion, which gives the
same records as reading them before it because `coerceNum` is
idempotent (see `targetValAt`). -/
def process_data (t : TargetTable) (a : ActualTable) (today : Date) :
    Option ProcResult :=
  match t.headers, a.headers with
  | [], _ => none
  | _ :: _, [] => none
  | _ :: _, _ :: _ =>
    match chooseTargetIdx t with
    | none => some ⟨[], [], t⟩
    | some j =>
      if (dateCols a).isEmpty then some ⟨[], [], mutateTarget t j⟩
      else if (buildChart t a j (dateCols a)).isEmpty then
        some ⟨[], [], mutateTarget t j⟩
      else
        some ⟨pandasSortDesc (summaryPre (buildChart t a j (dateCols a)) today),
          buildChart t a j (dateCols a), mutateTarget t j⟩

/-- The state of the target table after the call, as a function of the
input (identity unless the in-place coercion ran). -/
def targetAfterFn (t : TargetTable) : TargetTable :=
  match chooseTargetIdx t with
  | none => t
  | some j => mutateTarget t j

/-- The join-and-filter stage on its own: the chart `process_data` builds
once a target column exists (empty when the guard of line 106 fires). -/
def chartStage (t : TargetTable) (a : ActualTable) : List Rec :=
  match chooseTargetIdx t with
  | none => []
  | some j => buildChart t a j (dateCols a)

/-! ### Export adapter (src/gross_profit_metrics_exporter.py) -/

/-- `pd.to_datetime` on a value that is already a datetime is the
identity; the chart month column always holds datetimes. -/
def to_datetime (dt : Date) : Date := dt

/-- The column reassignment `chart_df['月'] = pd.to_datetime(chart_df['月'])`
(gross_profit_metrics_exporter.py:90 and :338). -/
def setMonthCol (c : List Rec) : List Rec :=
  c.map (fun r => { r with month := to_datetime r.month })

def sortMonthsDesc (ms : List Date) : List Date :=
  (ms.insertionSort dateLe).reverse

/-- `chart_df['月'].nlargest(3).min()`
(gross_profit_metrics_exporter.py:341): the smallest of the three largest
month values counted WITH multiplicity. -/
def top3Cutoff (c : List Rec) : Date :=
  ((sortMonthsDesc (c.map (·.month))).take 3).getLastD ⟨0, 1, 1⟩

/-- The achievement rates feeding the stability metric
(gross_profit_metrics_exporter.py:341-347): the records at or after the
cutoff. -/
def stabilityRates (c : List Rec) : List ℚ :=
  (c.filter (fun r => decide (dateLe (top3Cutoff c) r.month))).map (·.rate)

/-- gross_profit_metrics_exporter.py:347: the metric is emitted iff more
than one record feeds it. -/
def stabilityEmitted (c : List Rec) : Bool :=
  decide (1 < (stabilityRates c).length)

def sampleVar (l : List ℚ) : ℚ :=
  ((l.map (fun x => (x - meanQ l) ^ 2)).sum) / ((l.length : ℚ) - 1)

/-- The square of the emitted coefficient of variation
`(std/mean)*100` (std is the pandas sample standard deviation, ddof 1),
kept squared so it stays rational. -/
def cvSq (l : List ℚ) : ℚ := sampleVar l / (meanQ l) ^ 2 * 10000

/-! ### Spec-side definitions (formalising the claims' own words) -/

/-- The spec's reading of the stability window: the 3 most recent
DISTINCT periods. -/
def top3Distinct (c : List Rec) : List Date :=
  (sortMonthsDesc ((c.map (·.month)).dedup)).take 3

/-- The rates of the records falling in the 3 most recent distinct
periods (claim C8's record set). -/
def claimStabilityRates (c : List Rec) : List ℚ :=
  (c.filter (fun r => decide (r.month ∈ top3Distinct c))).map (·.rate)

/-- Claim C3's fiscal-year-start formula. -/
def spec_fyStartYear (today : Date) : Int :=
  if 4 ≤ today.m then today.y else today.y - 1

def spec_fyStart (today : Date) : Date := ⟨spec_fyStartYear today, 4, 1⟩

def spec_priorFyStart (today : Date) : Date :=
  ⟨spec_fyStartYear today - 1, 4, 1⟩

def spec_priorEnd (c : List Rec) : Date := subMonths (latestMonth c) 12

/-- Order on (year, month) pairs, for claim C2's "maximum (year, month)". -/
@[reducible] def pairLe (a b : Int × Nat) : Prop :=
  a.1 < b.1 ∨ (a.1 = b.1 ∧ a.2 ≤ b.2)

def monthPair (dt : Date) : Int × Nat := (dt.y, dt.m)

/-- The maximum (year, month) over all records (claim C2's "single global
latest period"). -/
def latestYM : List Rec → Int × Nat
  | [] => (0, 1)
  | r :: rs =>
    rs.foldl (fun acc x =>
      if pairLe acc (monthPair x.month) then monthPair x.month else acc)
      (monthPair r.month)

/-- The descending missing-last ordering on summary rows that the final
sort realises: valued rows by decreasing rate, every valued row before
every missing one, missing rows mutually tied. -/
def rDescB (a b : SummaryRow) : Bool :=
  match a.recentRate, b.recentRate with
  | some x, some y => decide (y ≤ x)
  | none, some _ => false
  | _, none => true

@[reducible] def rDesc (a b : SummaryRow) : Prop := rDescB a b = true

/-! ### Concrete inputs -/

/-- Target table of the spec's scenario: A with target 100, B with 200. -/
def wTgt : TargetTable :=
  ⟨["診療科", "目標"], [true], [("A", [.num 100]), ("B", [.num 200])]⟩

/-- Actual table of the spec's scenario. -/
def wAct : ActualTable :=
  ⟨[.label "診療科", .date ⟨2024, 1, 1⟩, .date ⟨2024, 2, 1⟩],
   [("A", [.num 50, .num 120]), ("B", [.num 200, .num 180])]⟩

def wDay : Date := ⟨2024, 3, 1⟩

def emptyRes : ProcResult := ⟨[], [], ⟨[], [], []⟩⟩

/-- The chart the scenario produces. -/
def wChart : List Rec :=
  [⟨"A", ⟨2024, 1, 1⟩, 50, 100, 50⟩, ⟨"A", ⟨2024, 2, 1⟩, 120, 100, 120⟩,
   ⟨"B", ⟨2024, 1, 1⟩, 200, 200, 100⟩, ⟨"B", ⟨2024, 2, 1⟩, 180, 200, 90⟩]

/-- Department A's summary row in the scenario. -/
def wSumA : SummaryRow :=
  ⟨"A", some 120, some 85, some 85, "改善傾向 👍", 40, none, 120, 170, 0⟩

/-- Department B's summary row in the scenario. -/
def wSumB : SummaryRow :=
  ⟨"B", some 90, some 95, some 95, "横ばい 😐", 60, none, 180, 380, 0⟩

/-- The full result of `process_data` on the scenario. -/
def wRes : ProcResult := ⟨[wSumA, wSumB], wChart, wTgt⟩

/-- A one-column target table (department column only). -/
def w4Tgt : TargetTable := ⟨["診療科"], [], []⟩


/-- Two date columns inside the same calendar month (a daily-granularity
actual file): headers 2024-01-01 and 2024-01-15. -/
def c2Act : ActualTable :=
  ⟨[.label "診療科", .date ⟨2024, 1, 1⟩, .date ⟨2024, 1, 15⟩],
   [("A", [.num 50, .nan]), ("B", [.num 50, .num 50])]⟩

def c2Tgt : TargetTable :=
  ⟨["診療科", "目標"], [true], [("A", [.num 100]), ("B", [.num 100])]⟩

/-- A target table with zero columns (a DataFrame can have no columns). -/
def c4Tgt : TargetTable := ⟨[], [], []⟩

def c4Act : ActualTable := ⟨[.label "診療科"], []⟩

/-- A text-valued target column (numeric dtype flag off). -/
def c5Tgt : TargetTable :=
  ⟨["診療科", "目標"], [false], [("A", [.str "1,000"])]⟩

def c5Act : ActualTable :=
  ⟨[.label "診療科", .date ⟨2024, 1, 1⟩], [("A", [.num 500])]⟩

/-- Two departments tied on the latest rate. -/
def c6Tgt : TargetTable :=
  ⟨["診療科", "目標"], [true], [("A", [.num 100]), ("B", [.num 100])]⟩

def c6Act : ActualTable :=
  ⟨[.label "診療科", .date ⟨2024, 1, 1⟩],
   [("A", [.num 100]), ("B", [.num 100])]⟩

/-- Duplicate target rows for department A. -/
def c7Tgt : TargetTable :=
  ⟨["診療科", "目標"], [true],
   [("A", [.num 100]), ("A", [.num 200]), ("B", [.num 100])]⟩

def c7Act : ActualTable :=
  ⟨[.label "診療科", .date ⟨2024, 1, 1⟩],
   [("A", [.num 100]), ("B", [.num 100])]⟩

/-- Two departments reporting in each of three months: the three largest
month values with multiplicity span only two distinct months. -/
def c8Chart : List Rec :=
  [⟨"A", ⟨2024, 1, 1⟩, 10, 100, 10⟩, ⟨"A", ⟨2024, 2, 1⟩, 20, 100, 20⟩,
   ⟨"A", ⟨2024, 3, 1⟩, 30, 100, 30⟩, ⟨"B", ⟨2024, 1, 1⟩, 40, 100, 40⟩,
   ⟨"B", ⟨2024, 2, 1⟩, 50, 100, 50⟩, ⟨"B", ⟨2024, 3, 1⟩, 60, 100, 60⟩]

/-! Literal outputs of the runs on the concrete inputs, used to keep each
evaluation proof shallow (one stage of the pipeline at a time). -/

def c2Chart : List Rec :=
  [⟨"A", ⟨2024, 1, 1⟩, 50, 100, 50⟩, ⟨"B", ⟨2024, 1, 1⟩, 50, 100, 50⟩,
   ⟨"B", ⟨2024, 1, 15⟩, 50, 100, 50⟩]

def c2SumB : SummaryRow :=
  ⟨"B", some 50, some 50, some 50, "横ばい 😐", 100, none, 50, 100, 0⟩

def c2SumA : SummaryRow :=
  ⟨"A", none, some 50, some 50, "", 0, none, 0, 50, 0⟩

def c2Res : ProcResult := ⟨[c2SumB, c2SumA], c2Chart, c2Tgt⟩

def c5Chart : List Rec := [⟨"A", ⟨2024, 1, 1⟩, 500, 1000, 50⟩]

def c5SumA : SummaryRow :=
  ⟨"A", some 50, some 50, some 50, "横ばい 😐", 100, none, 500, 500, 0⟩

/-- The target table after the c5 run: the text cell got coerced and the
column dtype became numeric. -/
def c5TgtAfter : TargetTable :=
  ⟨["診療科", "目標"], [true], [("A", [.num 1000])]⟩

def c5Res : ProcResult := ⟨[c5SumA], c5Chart, c5TgtAfter⟩

def c6Chart : List Rec :=
  [⟨"A", ⟨2024, 1, 1⟩, 100, 100, 100⟩, ⟨"B", ⟨2024, 1, 1⟩, 100, 100, 100⟩]

def c6SumB : SummaryRow :=
  ⟨"B", some 100, some 100, some 100, "横ばい 😐", 50, none, 100, 100, 0⟩

def c6SumA : SummaryRow :=
  ⟨"A", some 100, some 100, some 100, "横ばい 😐", 50, none, 100, 100, 0⟩

def c6Res : ProcResult := ⟨[c6SumA, c6SumB], c6Chart, c6Tgt⟩

def c7Chart : List Rec :=
  [⟨"A", ⟨2024, 1, 1⟩, 100, 100, 100⟩, ⟨"A", ⟨2024, 1, 1⟩, 100, 200, 50⟩,
   ⟨"B", ⟨2024, 1, 1⟩, 100, 100, 100⟩]

def c7SumB : SummaryRow :=
  ⟨"B", some 100, some 100, some 100, "横ばい 😐", 100 / 3, none, 100, 100, 0⟩

def c7SumA : SummaryRow :=
  ⟨"A", some 100, some 75, some 75, "改善傾向 👍", 100 / 3, none, 100, 200, 0⟩

def c7Res : ProcResult := ⟨[c7SumA, c7SumB], c7Chart, c7Tgt⟩

/-! ### The claims as stated (used by the counterexamples) -/

/-- Claim C2 as stated: latest_rate present iff the department has a
record at the maximum (year, month); else latest_actual is 0. -/
def statedC2 : Prop :=
  ∀ t a today res, process_data t a today = some res →
    ∀ s ∈ res.summary,
      (s.recentRate.isSome ↔ ∃ r ∈ res.chart,
        r.dept = s.dept ∧ monthPair r.month = latestYM res.chart)
      ∧ (s.recentRate = none → s.recentActual = 0)

/-- Claim C4 as stated: any of the three structural failures yields an
empty-result return (no exception) on every input pair of tables. -/
def statedC4 : Prop :=
  ∀ t a today,
    (t.headers.length < 2 ∨ dateCols a = [] ∨ chartStage t a = []) →
    ∃ res, process_data t a today = some res ∧
      res.summary = [] ∧ res.chart = []

/-- Claim C5 as stated (the refutable part): `process_data` leaves the
target table it was given unchanged. -/
def statedC5 : Prop :=
  ∀ t a today res, process_data t a today = some res → res.targetAfter = t

/-- Claim C7 as stated: if every department of the summary has a record
at the latest period and the latest-period total is positive, the profit
shares sum to 100. -/
def statedC7 : Prop :=
  ∀ t a today res, process_data t a today = some res →
    (∀ s ∈ res.summary, ∃ r ∈ res.chart,
      r.dept = s.dept ∧ r.month = latestMonth res.chart) →
    0 < totalRecent res.chart (latestMonth res.chart) →
    (res.summary.map (·.share)).sum = 100

/-- Claim C8 as stated: the stability metric is computed over exactly the
records of the 3 most recent distinct periods, and skipped iff that set
has at most one record. -/
def statedC8 : Prop :=
  ∀ c : List Rec, c ≠ [] →
    stabilityRates c = claimStabilityRates c
    ∧ (stabilityEmitted c = true ↔ 1 < (claimStabilityRates c).length)

/-! ### Assembling concrete runs stage by stage -/

/-- Assembles a successful `process_data` run from per-stage equations, so
that each stage can be evaluated by a separate shallow `decide`. -/
theorem process_data_build (t : TargetTable) (a : ActualTable) (today : Date)
    (j : Nat) (dc : List (Date × Nat)) (ch : List Rec)
    (su : List SummaryRow) (t2 : TargetTable)
    (ht : t.headers ≠ []) (ha : a.headers ≠ [])
    (hcj : chooseTargetIdx t = some j)
    (hdc : dateCols a = dc) (hdcne : dc.isEmpty = false)
    (hbc : buildChart t a j dc = ch) (hchne : ch.isEmpty = false)
    (hsu : pandasSortDesc (summaryPre ch today) = su)
    (hmt : mutateTarget t j = t2) :
    process_data t a today = some ⟨su, ch, t2⟩ := by
  unfold process_data
  rcases hth : t.headers with _ | ⟨x0, xs⟩
  · exact absurd hth ht
  rcases hta : a.headers with _ | ⟨y0, ys⟩
  · exact absurd hta ha
  simp only [hcj, hdc, hbc, hsu, hmt, hdcne, hchne]
  simp [hchne]

/-- The scenario run, assembled. -/
theorem wRun : process_data wTgt wAct wDay = some wRes :=
  process_data_build wTgt wAct wDay 0
    [(⟨2024, 1, 1⟩, 1), (⟨2024, 2, 1⟩, 2)] wChart [wSumA, wSumB] wTgt
    (by decide) (by decide) (by decide)
    (by decide) (by decide)
    (by decide) (by decide)
    (by decide) (by decide)

theorem c2Run : process_data c2Tgt c2Act wDay = some c2Res :=
  process_data_build c2Tgt c2Act wDay 0
    [(⟨2024, 1, 1⟩, 1), (⟨2024, 1, 15⟩, 2)] c2Chart [c2SumB, c2SumA] c2Tgt
    (by decide) (by decide) (by decide)
    (by decide) (by decide)
    (by decide) (by decide)
    (by decide) (by decide)

theorem c5Run : process_data c5Tgt c5Act wDay = some c5Res :=
  process_data_build c5Tgt c5Act wDay 0
    [(⟨2024, 1, 1⟩, 1)] c5Chart [c5SumA] c5TgtAfter
    (by decide) (by decide) (by decide)
    (by decide) (by decide)
    (by decide) (by decide)
    (by decide) (by decide)

theorem c6Run : process_data c6Tgt c6Act wDay = some c6Res :=
  process_data_build c6Tgt c6Act wDay 0
    [(⟨2024, 1, 1⟩, 1)] c6Chart [c6SumA, c6SumB] c6Tgt
    (by decide) (by decide) (by decide)
    (by decide) (by decide)
    (by decide) (by decide)
    (by decide) (by decide)

theorem c7Run : process_data c7Tgt c7Act wDay = some c7Res :=
  process_data_build c7Tgt c7Act wDay 0
    [(⟨2024, 1, 1⟩, 1)] c7Chart [c7SumA, c7SumB] c7Tgt
    (by decide) (by decide) (by decide)
    (by decide) (by decide)
    (by decide) (by decide)
    (by decide) (by decide)

/-! ### Counterexamples -/

/-- C2 counterexample: with date columns 2024-01-01 and 2024-01-15,
department A has a record in the maximum (year, month) = (2024, 1), yet
its latest_rate is missing, because the source compares full timestamps
(data_processor.py:187, 202) and A has no record at 2024-01-15. -/
theorem C2_counterexample : ¬ statedC2 := by
  intro h
  have h2 := h c2Tgt c2Act wDay c2Res c2Run
  revert h2
  decide

/-- C4 counterexample: a target table with zero columns satisfies
"fewer than 2 columns", but `target_df.columns[0]`
(data_processor.py:82) raises IndexError instead of returning empty
tables. -/
theorem C4_counterexample : ¬ statedC4 := by
  intro h
  obtain ⟨res, hres, -, -⟩ :=
    h c4Tgt c4Act wDay (Or.inl (by decide))
  rw [show process_data c4Tgt c4Act wDay = none from rfl] at hres
  exact Option.noConfusion hres

/-- C5 counterexample: a text target column ("1,000", non-numeric dtype)
is coerced in place (data_processor.py:115-118), so after the call the
target table differs from the one passed in. -/
theorem C5_counterexample : ¬ statedC5 := by
  intro h
  have h2 := h c5Tgt c5Act wDay c5Res c5Run
  revert h2
  decide

/-- C7 counterexample: with duplicate target rows for department A, the
latest-month total counts both generated records (300) while each
department's latest_actual is a single record's value (100), so the
shares sum to 200/3, not 100 — though every department has a record at
the latest period and the total is positive. -/
theorem C7_counterexample : ¬ statedC7 := by
  intro h
  have h2 := h c7Tgt c7Act wDay c7Res c7Run
  revert h2
  decide

/-- C8 counterexample: two departments reporting in months 1..3 of 2024:
`nlargest(3)` returns [Mar, Mar, Feb] (multiplicity!), the cutoff is
February, and the window holds the 4 records of the last TWO distinct
months, not the 6 records of the last three distinct periods. -/
theorem C8_counterexample : ¬ statedC8 := by
  intro h
  have h2 := h c8Chart (by decide)
  revert h2
  decide

/-! ### Confirmed claims C1 and C9 -/

/-- C1: on target {A: 100, B: 200}, actuals A = [50@2024-01, 120@2024-02],
B = [200@2024-01, 180@2024-02] and today = 2024-03-01, `process_data`
emits exactly the four records A/2024-01 rate 50, A/2024-02 rate 120,
B/2024-01 rate 100, B/2024-02 rate 90 (each rate being
actual / target × 100), and the summary has A.latest_rate = 120 and
B.latest_rate = 90 in the order [A, B]. -/
theorem C1_scenario :
    ∃ res, process_data wTgt wAct wDay = some res ∧
      res.chart =
        [⟨"A", ⟨2024, 1, 1⟩, 50, 100, 50⟩, ⟨"A", ⟨2024, 2, 1⟩, 120, 100, 120⟩,
         ⟨"B", ⟨2024, 1, 1⟩, 200, 200, 100⟩,
         ⟨"B", ⟨2024, 2, 1⟩, 180, 200, 90⟩] ∧
      res.summary.map (fun s => (s.dept, s.recentRate)) =
        [("A", some 120), ("B", some 90)] :=
  ⟨wRes, wRun, by decide, by decide⟩

/-- C9: the Metrics Engine is a pure function of the two input tables and
`today`: two runs on identical inputs give identical results.  The
embedding of `process_data` needs no state beyond its three arguments —
the source reads no mutable globals (its only non-local interactions are
log prints) — so determinism is definitional. -/
theorem C9_deterministic (t1 t2 : TargetTable) (a1 a2 : ActualTable)
    (d1 d2 : Date) (ht : t1 = t2) (ha : a1 = a2) (hd : d1 = d2) :
    process_data t1 a1 d1 = process_data t2 a2 d2 := by
  subst ht ha hd; rfl

theorem C9_witness :
    process_data wTgt wAct wDay = process_data wTgt wAct wDay :=
  C9_deterministic wTgt wTgt wAct wAct wDay wDay rfl rfl rfl

/-! ### Order and list lemmas -/

theorem Date.ext' {a b : Date} (hy : a.y = b.y) (hm : a.m = b.m)
    (hd : a.d = b.d) : a = b := by
  cases a; cases b; simp_all

theorem dateLe_refl (a : Date) : dateLe a a := by unfold dateLe; omega

theorem dateLe_antisymm {a b : Date} (hab : dateLe a b) (hba : dateLe b a) :
    a = b := by
  refine Date.ext' ?_ ?_ ?_ <;> (unfold dateLe at hab hba; omega)

theorem rateKey_eq {s : SummaryRow} {q : ℚ} (h : s.recentRate = some q) :
    rateKey s = q := by
  unfold rateKey; rw [h]; rfl

theorem rDesc_of_none_right {a b : SummaryRow} (hb : b.recentRate = none) :
    rDesc a b := by
  show rDescB a b = true
  unfold rDescB
  rw [hb]
  cases a.recentRate <;> rfl

/-- Inserting an element whose class under `p` ties with it (w.r.t. `r`)
prepends it to the filtered list. -/
theorem filter_orderedInsert_pos {α : Type} {r : α → α → Prop} [DecidableRel r]
    {p : α → Bool} {x : α} (hx : p x = true) (hcl : ∀ y, p y = true → r x y) :
    ∀ l : List α, (List.orderedInsert r x l).filter p = x :: l.filter p := by
  intro l
  induction l with
  | nil => simp [List.orderedInsert, hx]
  | cons y ys ih =>
    by_cases hr : r x y
    · simp only [List.orderedInsert, if_pos hr]
      simp [List.filter_cons, hx]
    · simp only [List.orderedInsert, if_neg hr]
      have hpy : p y = false := by
        cases hy : p y
        · rfl
        · exact absurd (hcl y hy) hr
      simp [List.filter_cons, hpy, ih]

theorem filter_orderedInsert_neg {α : Type} {r : α → α → Prop} [DecidableRel r]
    {p : α → Bool} {x : α} (hx : p x = false) :
    ∀ l : List α, (List.orderedInsert r x l).filter p = l.filter p := by
  intro l
  induction l with
  | nil => simp [List.orderedInsert, hx]
  | cons y ys ih =>
    by_cases hr : r x y
    · simp only [List.orderedInsert, if_pos hr]
      simp [List.filter_cons, hx]
    · simp only [List.orderedInsert, if_neg hr]
      simp [List.filter_cons, ih]

/-- Stability of insertion sort, phrased on an equivalence class: the
elements satisfying `p` (all of which tie under `r`) keep their relative
order. -/
theorem filter_insertionSort_ties {α : Type} {r : α → α → Prop} [DecidableRel r]
    {p : α → Bool} (hcl : ∀ x y, p x = true → p y = true → r x y) :
    ∀ l : List α, (List.insertionSort r l).filter p = l.filter p := by
  intro l
  induction l with
  | nil => rfl
  | cons x xs ih =>
    show (List.orderedInsert r x (List.insertionSort r xs)).filter p = _
    cases hx : p x
    · rw [filter_orderedInsert_neg hx, ih]
      simp [List.filter_cons, hx]
    · rw [filter_orderedInsert_pos hx (fun y hy => hcl x y hx hy), ih]
      simp [List.filter_cons, hx]

/-! ### Lemmas about the final pandas sort -/

theorem pandasSortDesc_perm (l : List SummaryRow) :
    List.Perm (pandasSortDesc l) l := by
  unfold pandasSortDesc
  refine List.Perm.trans (List.Perm.append ?_ (List.Perm.refl _))
    (List.filter_append_perm _ l)
  exact (List.reverse_perm _).trans
    ((List.perm_insertionSort _ _).trans (List.reverse_perm _))

theorem mem_pandasSortDesc {l : List SummaryRow} {s : SummaryRow} :
    s ∈ pandasSortDesc l ↔ s ∈ l :=
  (pandasSortDesc_perm l).mem_iff

theorem pairwise_rDesc_of_all_none {l : List SummaryRow}
    (h : ∀ s ∈ l, s.recentRate = none) : l.Pairwise rDesc := by
  induction l with
  | nil => exact List.Pairwise.nil
  | cons x xs ih =>
    refine List.Pairwise.cons
      (fun b hb => rDesc_of_none_right (h b (List.mem_cons_of_mem x hb)))
      (ih (fun s hs => h s (List.mem_cons_of_mem x hs)))

theorem isSome_of_mem_valued {l : List SummaryRow} {s : SummaryRow}
    (h : s ∈ ((l.filter (fun s => s.recentRate.isSome)).reverse).insertionSort
      rRate) :
    s.recentRate.isSome := by
  have h1 := List.mem_reverse.mp ((List.mem_insertionSort _).mp h)
  exact (List.mem_filter.mp h1).2

theorem pairwise_rDesc_pandasSortDesc (l : List SummaryRow) :
    (pandasSortDesc l).Pairwise rDesc := by
  unfold pandasSortDesc
  rw [List.pairwise_append]
  refine ⟨?_, ?_, ?_⟩
  · rw [List.pairwise_reverse]
    have hs : List.Sorted rRate
        (((l.filter (fun s => s.recentRate.isSome)).reverse).insertionSort
          rRate) :=
      List.sorted_insertionSort rRate _
    refine List.Pairwise.imp_of_mem ?_ hs
    intro a b ha hb hab
    obtain ⟨qa, hqa⟩ := Option.isSome_iff_exists.mp (isSome_of_mem_valued ha)
    obtain ⟨qb, hqb⟩ := Option.isSome_iff_exists.mp (isSome_of_mem_valued hb)
    have hle : qa ≤ qb := by
      have := hab
      unfold rRate at this
      rw [rateKey_eq hqa, rateKey_eq hqb] at this
      exact this
    show rDescB b a = true
    unfold rDescB
    rw [hqa, hqb]
    exact decide_eq_true hle
  · refine pairwise_rDesc_of_all_none ?_
    intro s hs
    have := (List.mem_filter.mp hs).2
    simpa using this
  · intro a _ b hb
    refine rDesc_of_none_right ?_
    have := (List.mem_filter.mp hb).2
    simpa using this

theorem filter_none_pandasSortDesc (l : List SummaryRow) :
    (pandasSortDesc l).filter (fun s => !s.recentRate.isSome)
      = l.filter (fun s => !s.recentRate.isSome) := by
  unfold pandasSortDesc
  rw [List.filter_append]
  have h1 : ((((l.filter (fun s => s.recentRate.isSome)).reverse).insertionSort
      rRate).reverse).filter (fun s => !s.recentRate.isSome) = [] := by
    rw [List.filter_reverse]
    have : (((l.filter (fun s => s.recentRate.isSome)).reverse).insertionSort
        rRate).filter (fun s => !s.recentRate.isSome) = [] := by
      rw [List.filter_eq_nil_iff]
      intro a ha
      simp [isSome_of_mem_valued ha]
    rw [this, List.reverse_nil]
  have h2 : (l.filter (fun s => !s.recentRate.isSome)).filter
      (fun s => !s.recentRate.isSome) = l.filter (fun s => !s.recentRate.isSome) := by
    rw [List.filter_eq_self]
    intro a ha
    exact (List.mem_filter.mp ha).2
  rw [h1, h2, List.nil_append]

/-- Ties are STABLE: for any rate value, the rows carrying exactly that
rate come out of the final sort in their original (groupby) order — the
double reversal of `nargsort` cancels on each tie class. -/
theorem filter_some_pandasSortDesc (l : List SummaryRow) (q : ℚ) :
    (pandasSortDesc l).filter (fun s => decide (s.recentRate = some q))
      = l.filter (fun s => decide (s.recentRate = some q)) := by
  unfold pandasSortDesc
  rw [List.filter_append]
  have h2 : (l.filter (fun s => !s.recentRate.isSome)).filter
      (fun s => decide (s.recentRate = some q)) = [] := by
    rw [List.filter_eq_nil_iff]
    intro a ha
    have := (List.mem_filter.mp ha).2
    simp only [Bool.not_eq_true'] at this
    simp [Option.eq_some_iff_get_eq]
    intro hcontra
    rw [hcontra] at this
    exact Bool.noConfusion this
  have h1 : ((((l.filter (fun s => s.recentRate.isSome)).reverse).insertionSort
      rRate).reverse).filter (fun s => decide (s.recentRate = some q))
      = l.filter (fun s => decide (s.recentRate = some q)) := by
    rw [List.filter_reverse]
    rw [filter_insertionSort_ties ?_]
    · rw [List.filter_reverse, List.reverse_reverse]
      rw [List.filter_filter]
      refine List.filter_congr ?_
      intro x _
      cases hx : decide (x.recentRate = some q)
      · simp
      · have : x.recentRate = some q := of_decide_eq_true hx
        simp [this]
    · intro x y hx hy
      have hx' : x.recentRate = some q := of_decide_eq_true hx
      have hy' : y.recentRate = some q := of_decide_eq_true hy
      unfold rRate
      rw [rateKey_eq hx', rateKey_eq hy']
  rw [h1, h2, List.append_nil]

/-! ### Inversion of `process_data` -/

theorem dept_of_recsForRow {a : ActualTable} {dcols : List (Date × Nat)}
    {j : Nat} {row : String × List PyVal} {r : Rec}
    (h : r ∈ recsForRow a dcols j row) : r.dept = row.1 := by
  unfold recsForRow at h
  split at h
  · simp at h
  · split at h
    · split at h
      · obtain ⟨di, _, hr⟩ := List.mem_filterMap.mp h
        split at hr
        · cases hr; rfl
        · exact Option.noConfusion hr
      · simp at h
    · simp at h

theorem dept_mem_of_mem_buildChart {t : TargetTable} {a : ActualTable}
    {j : Nat} {dcols : List (Date × Nat)} {r : Rec}
    (hr : r ∈ buildChart t a j dcols) : r.dept ∈ t.rows.map Prod.fst := by
  unfold buildChart at hr
  obtain ⟨row, hrow, hr2⟩ := List.mem_flatMap.mp hr
  rw [dept_of_recsForRow hr2]
  exact List.mem_map.mpr ⟨row, hrow, rfl⟩

/-- Everything the rest of the file needs to know about a successful run:
the returned summary is the sorted summary of the returned chart, the
target table after the run is `targetAfterFn`, and every chart record's
department comes from the target table's first column. -/
theorem process_data_eq_some {t : TargetTable} {a : ActualTable}
    {today : Date} {res : ProcResult}
    (h : process_data t a today = some res) :
    res.summary = pandasSortDesc (summaryPre res.chart today)
    ∧ res.targetAfter = targetAfterFn t
    ∧ ∀ r ∈ res.chart, r.dept ∈ t.rows.map Prod.fst := by
  unfold process_data at h
  rcases ht : t.headers with _ | ⟨h0, hs⟩
  · rw [ht] at h; simp at h
  rcases ha : a.headers with _ | ⟨g0, gs⟩
  · rw [ht, ha] at h; simp at h
  rw [ht, ha] at h
  simp only at h
  rcases hcj : chooseTargetIdx t with _ | j
  · rw [hcj] at h
    simp only [Option.some.injEq] at h
    subst h
    refine ⟨rfl, ?_, by simp⟩
    unfold targetAfterFn
    rw [hcj]
  · rw [hcj] at h
    simp only at h
    split at h
    · simp only [Option.some.injEq] at h
      subst h
      refine ⟨rfl, ?_, by simp⟩
      unfold targetAfterFn
      rw [hcj]
    · split at h
      · simp only [Option.some.injEq] at h
        subst h
        refine ⟨rfl, ?_, by simp⟩
        unfold targetAfterFn
        rw [hcj]
      · simp only [Option.some.injEq] at h
        subst h
        refine ⟨rfl, ?_, ?_⟩
        · unfold targetAfterFn
          rw [hcj]
        · intro r hr
          exact dept_mem_of_mem_buildChart hr

/-! ### Projections of `mkSummary` -/

theorem mkSummary_dept (today latest : Date) (total : ℚ) (dept : String)
    (g0 : List Rec) : (mkSummary today latest total dept g0).dept = dept := rfl

theorem mkSummary_recentRate (today latest : Date) (total : ℚ) (dept : String)
    (g0 : List Rec) :
    (mkSummary today latest total dept g0).recentRate
      = ((g0.insertionSort rRec).filter
          (fun r => decide (r.month = latest))).head?.map (·.rate) := rfl

theorem mkSummary_recentActual (today latest : Date) (total : ℚ) (dept : String)
    (g0 : List Rec) :
    (mkSummary today latest total dept g0).recentActual
      = (((g0.insertionSort rRec).filter
          (fun r => decide (r.month = latest))).head?.map (·.actual)).getD 0 :=
  rfl

theorem mkSummary_share (today latest : Date) (total : ℚ) (dept : String)
    (g0 : List Rec) :
    (mkSummary today latest total dept g0).share
      = if 0 < total
        then (mkSummary today latest total dept g0).recentActual / total * 100
        else 0 := rfl

theorem mkSummary_curFy (today latest : Date) (total : ℚ) (dept : String)
    (g0 : List Rec) :
    (mkSummary today latest total dept g0).curFyActual
      = sumActual ((g0.insertionSort rRec).filter
          (fun r => decide (dateLe (spec_fyStart today) r.month))) := rfl

theorem mkSummary_lastFy (today latest : Date) (total : ℚ) (dept : String)
    (g0 : List Rec) :
    (mkSummary today latest total dept g0).lastFyActual
      = sumActual ((g0.insertionSort rRec).filter
          (fun r => decide (dateLe (spec_priorFyStart today) r.month)
            && decide (dateLe r.month (subMonths latest 12)))) := rfl

theorem mkSummary_yoy (today latest : Date) (total : ℚ) (dept : String)
    (g0 : List Rec) :
    (mkSummary today latest total dept g0).yoy
      = if 0 < (mkSummary today latest total dept g0).lastFyActual
        then some ((mkSummary today latest total dept g0).curFyActual
          / (mkSummary today latest total dept g0).lastFyActual * 100)
        else none := rfl

/-! ### Small list helpers -/

theorem head_filter_isSome_iff {p : Rec → Bool} {l : List Rec} {f : Rec → ℚ} :
    (((l.filter p).head?.map f).isSome = true) ↔ ∃ x ∈ l, p x = true := by
  cases hL : l.filter p with
  | nil =>
    simp only [hL, List.head?_nil, Option.map_none', Option.isSome_none,
      Bool.false_eq_true, false_iff]
    rintro ⟨x, hxl, hpx⟩
    have := List.filter_eq_nil_iff.mp hL x hxl
    simp [hpx] at this
  | cons y ys =>
    simp only [hL, List.head?_cons, Option.map_some', Option.isSome_some,
      true_iff]
    have hy : y ∈ l.filter p := by rw [hL]; exact List.mem_cons_self _ _
    obtain ⟨hyl, hpy⟩ := List.mem_filter.mp hy
    exact ⟨y, hyl, hpy⟩

/-- Sums of `actual` over a filtered, sorted per-department group, pushed
back to the whole chart. -/
theorem sumActual_group_filter (c : List Rec) (dn : String) (p : Rec → Bool) :
    sumActual (((c.filter (fun r => decide (r.dept = dn))).insertionSort
        rRec).filter p)
      = sumActual (c.filter (fun r => decide (r.dept = dn) && p r)) := by
  have hperm := (List.perm_insertionSort rRec
    (c.filter (fun r => decide (r.dept = dn)))).filter p
  unfold sumActual
  rw [(hperm.map (·.actual)).sum_eq]
  rw [List.filter_filter]
  congr 1
  congr 1
  refine List.filter_congr ?_
  intro x _
  rw [Bool.and_comm]

/-! ### Claim C2 (amended) -/

/-- C2 (amended): for every department summary, `latest_rate` is present
iff the department has an AchievementRecord whose period equals the
latest period taken as the maximum full timestamp (year, month, day) —
not the maximum (year, month) — over all records; when absent,
`latest_actual` is 0.  See `C2_counterexample` for the (year, month)
reading failing. -/
theorem C2_latest_rate_iff (t : TargetTable) (a : ActualTable) (today : Date)
    (res : ProcResult) (h : process_data t a today = some res) :
    ∀ s ∈ res.summary,
      ((s.recentRate.isSome = true) ↔ ∃ r ∈ res.chart,
        r.dept = s.dept ∧ r.month = latestMonth res.chart)
      ∧ (s.recentRate = none → s.recentActual = 0) := by
  intro s hs
  rw [(process_data_eq_some h).1, mem_pandasSortDesc] at hs
  obtain ⟨dn, hdn, rfl⟩ := List.mem_map.mp hs
  constructor
  · rw [mkSummary_recentRate, mkSummary_dept, head_filter_isSome_iff]
    constructor
    · rintro ⟨x, hx, hpx⟩
      rw [List.mem_insertionSort] at hx
      obtain ⟨hxc, hdx⟩ := List.mem_filter.mp hx
      exact ⟨x, hxc, of_decide_eq_true hdx, of_decide_eq_true hpx⟩
    · rintro ⟨r, hrc, hrd, hrm⟩
      exact ⟨r, (List.mem_insertionSort _).mpr
        (List.mem_filter.mpr ⟨hrc, decide_eq_true hrd⟩), decide_eq_true hrm⟩
  · intro hnone
    rw [mkSummary_recentRate] at hnone
    rw [mkSummary_recentActual, Option.map_eq_none'.mp hnone]
    rfl

theorem C2_witness :
    ((wSumB.recentRate.isSome = true) ↔ ∃ r ∈ wRes.chart,
      r.dept = wSumB.dept ∧ r.month = latestMonth wRes.chart)
    ∧ (wSumB.recentRate = none → wSumB.recentActual = 0) :=
  C2_latest_rate_iff wTgt wAct wDay wRes wRun wSumB (by decide)

/-! ### Claim C3 -/

/-- C3: for every department summary, the fiscal year starts April 1 of
`today.year` when `today.month ≥ 4`, else of the prior year
(`spec_fyStart`); `current_fy_actual` sums the department's actuals from
that date on; `prior_fy_actual` sums them over [April 1 of the previous
fiscal year, latest month minus 12 months]; and the year-over-year ratio
is `current / prior × 100` when the prior sum is positive and missing
otherwise. -/
theorem C3_fiscal_windows (t : TargetTable) (a : ActualTable) (today : Date)
    (res : ProcResult) (h : process_data t a today = some res) :
    ∀ s ∈ res.summary,
      s.curFyActual = sumActual (res.chart.filter (fun r =>
        decide (r.dept = s.dept)
          && decide (dateLe (spec_fyStart today) r.month)))
      ∧ s.lastFyActual = sumActual (res.chart.filter (fun r =>
        decide (r.dept = s.dept)
          && (decide (dateLe (spec_priorFyStart today) r.month)
            && decide (dateLe r.month (spec_priorEnd res.chart)))))
      ∧ s.yoy = (if 0 < s.lastFyActual
          then some (s.curFyActual / s.lastFyActual * 100) else none) := by
  intro s hs
  rw [(process_data_eq_some h).1, mem_pandasSortDesc] at hs
  obtain ⟨dn, hdn, rfl⟩ := List.mem_map.mp hs
  refine ⟨?_, ?_, mkSummary_yoy _ _ _ _ _⟩
  · rw [mkSummary_curFy, mkSummary_dept]
    exact sumActual_group_filter _ _ _
  · rw [mkSummary_lastFy, mkSummary_dept]
    exact sumActual_group_filter _ _ _

theorem C3_witness :
    wSumA.curFyActual = sumActual (wRes.chart.filter (fun r =>
      decide (r.dept = wSumA.dept)
        && decide (dateLe (spec_fyStart wDay) r.month)))
    ∧ wSumA.lastFyActual = sumActual (wRes.chart.filter (fun r =>
      decide (r.dept = wSumA.dept)
        && (decide (dateLe (spec_priorFyStart wDay) r.month)
          && decide (dateLe r.month (spec_priorEnd wRes.chart)))))
    ∧ wSumA.yoy = (if 0 < wSumA.lastFyActual
        then some (wSumA.curFyActual / wSumA.lastFyActual * 100) else none) :=
  C3_fiscal_windows wTgt wAct wDay wRes wRun wSumA (by decide)

/-! ### Claim C4 (amended) -/

theorem chooseTargetIdx_eq_none {t : TargetTable} (h : t.headers.length < 2) :
    chooseTargetIdx t = none := by
  unfold chooseTargetIdx
  rcases ht : t.headers with _ | ⟨x, xs⟩
  · rfl
  · rcases xs with _ | ⟨y, ys⟩
    · rfl
    · exfalso
      rw [ht] at h
      simp only [List.length_cons] at h
      omega

/-- C4 (amended): provided both input tables have at least one column
(a zero-column table instead raises IndexError at
data_processor.py:82-83, see `C4_counterexample`), each of the three
structural failures — target table with fewer than 2 columns, no date
columns in the actual table, join-and-filter producing no records —
makes `process_data` return a pair of empty tables without raising. -/
theorem C4_empty_on_failure (t : TargetTable) (a : ActualTable) (today : Date)
    (ht : t.headers ≠ []) (ha : a.headers ≠ [])
    (hcond : t.headers.length < 2 ∨ dateCols a = [] ∨ chartStage t a = []) :
    process_data t a today = some ⟨[], [], targetAfterFn t⟩ := by
  unfold process_data targetAfterFn
  rcases hth : t.headers with _ | ⟨x0, xs⟩
  · exact absurd hth ht
  rcases hta : a.headers with _ | ⟨y0, ys⟩
  · exact absurd hta ha
  rcases hcj : chooseTargetIdx t with _ | j
  · rfl
  · by_cases hdc : (dateCols a).isEmpty = true
    · simp [hdc]
    · have hch : buildChart t a j (dateCols a) = [] := by
        rcases hcond with h1 | h2 | h3
        · rw [chooseTargetIdx_eq_none h1] at hcj
          exact Option.noConfusion hcj
        · exact absurd (by simp [h2]) hdc
        · unfold chartStage at h3
          rw [hcj] at h3
          exact h3
      simp [hdc, hch]

theorem C4_witness :
    process_data w4Tgt c4Act wDay = some ⟨[], [], targetAfterFn w4Tgt⟩ :=
  C4_empty_on_failure w4Tgt c4Act wDay (by decide) (by decide)
    (Or.inl (by decide))

/-! ### Claim C5 (amended) -/

/-- C5 (amended): `process_data` leaves the target table unchanged when
the chosen target-value column already has numeric dtype (when it does
not, the column is coerced in place — see `C5_counterexample`), and the
export adapter's period-column reassignment rewrites the chart with
identical values, leaving it unchanged. -/
theorem C5_mutation_scope (t : TargetTable) (a : ActualTable) (today : Date)
    (res : ProcResult) (j : Nat) (c : List Rec)
    (h : process_data t a today = some res)
    (hcj : chooseTargetIdx t = some j)
    (hnum : t.numeric.getD j false = true) :
    res.targetAfter = t ∧ setMonthCol c = c := by
  constructor
  · rw [(process_data_eq_some h).2.1]
    unfold targetAfterFn
    rw [hcj]
    unfold mutateTarget
    exact if_pos hnum
  · unfold setMonthCol to_datetime
    simp

theorem C5_witness : wRes.targetAfter = wTgt ∧ setMonthCol wChart = wChart :=
  C5_mutation_scope wTgt wAct wDay wRes 0 wChart wRun (by decide) (by decide)

/-! ### Claim C6 -/

/-- C6: the returned summary is ordered descending by latest_rate with
missing rates after all valued rows, and the sort is STABLE: the missing
group keeps its relative (groupby) order and so does every group of rows
with equal latest_rate — pandas `nargsort` reverses the non-NaN values
and positions before its stable ascending arg-sort and reverses the
indexer after, so the double reversal preserves tie order (exact for the
< 16-element partitions this dashboard produces, numpy quicksort being
insertion sort there). -/
theorem C6_sort_properties (t : TargetTable) (a : ActualTable) (today : Date)
    (res : ProcResult) (h : process_data t a today = some res) :
    res.summary.Pairwise rDesc
    ∧ res.summary.filter (fun s => !s.recentRate.isSome)
        = (summaryPre res.chart today).filter (fun s => !s.recentRate.isSome)
    ∧ ∀ q : ℚ, res.summary.filter (fun s => decide (s.recentRate = some q))
        = (summaryPre res.chart today).filter
            (fun s => decide (s.recentRate = some q)) := by
  rw [(process_data_eq_some h).1]
  exact ⟨pairwise_rDesc_pandasSortDesc _, filter_none_pandasSortDesc _,
    fun q => filter_some_pandasSortDesc _ q⟩

theorem C6_witness :
    c6Res.summary.Pairwise rDesc
    ∧ c6Res.summary.filter (fun s => !s.recentRate.isSome)
        = (summaryPre c6Res.chart wDay).filter (fun s => !s.recentRate.isSome)
    ∧ c6Res.summary.filter (fun s => decide (s.recentRate = some 100))
        = (summaryPre c6Res.chart wDay).filter
            (fun s => decide (s.recentRate = some (100 : ℚ))) := by
  obtain ⟨h1, h2, h3⟩ := C6_sort_properties c6Tgt c6Act wDay c6Res c6Run
  exact ⟨h1, h2, h3 100⟩

/-! ### Claim C10 -/

/-- C10: every department name in either output comes from the target
table's first column; a department present only in the actual table
produces no AchievementRecord and no summary row, because the join loop
iterates over target rows only. -/
theorem C10_output_depts (t : TargetTable) (a : ActualTable) (today : Date)
    (res : ProcResult) (h : process_data t a today = some res) :
    (∀ r ∈ res.chart, r.dept ∈ t.rows.map Prod.fst)
    ∧ ∀ s ∈ res.summary, s.dept ∈ t.rows.map Prod.fst := by
  have hchart := (process_data_eq_some h).2.2
  refine ⟨hchart, ?_⟩
  intro s hs
  rw [(process_data_eq_some h).1, mem_pandasSortDesc] at hs
  obtain ⟨dn, hdn, rfl⟩ := List.mem_map.mp hs
  rw [mkSummary_dept]
  have hmem : dn ∈ res.chart.map (·.dept) := by
    have h1 := (List.mem_insertionSort _).mp hdn
    exact List.mem_dedup.mp h1
  obtain ⟨r, hr, hrd⟩ := List.mem_map.mp hmem
  rw [← hrd]
  exact hchart r hr

theorem C10_witness :
    (⟨"A", ⟨2024, 1, 1⟩, 50, 100, 50⟩ : Rec).dept ∈ wTgt.rows.map Prod.fst
    ∧ wSumA.dept ∈ wTgt.rows.map Prod.fst := by
  obtain ⟨h1, h2⟩ := C10_output_depts wTgt wAct wDay wRes wRun
  exact ⟨h1 _ (by decide), h2 wSumA (by decide)⟩

/-! ### Claim C7 (amended): partition machinery for the share sum -/

/-- When the department keys of a record list are pairwise distinct, at
most one record carries any given key. -/
theorem length_filter_key_le_one {l : List Rec}
    (hnd : (l.map (·.dept)).Nodup) (d : String) :
    (l.filter (fun r => decide (r.dept = d))).length ≤ 1 := by
  induction l with
  | nil => simp
  | cons x xs ih =>
    rw [List.map_cons, List.nodup_cons] at hnd
    obtain ⟨hx, hxs⟩ := hnd
    by_cases hxd : x.dept = d
    · rw [List.filter_cons, if_pos (decide_eq_true hxd)]
      have hnil : xs.filter (fun r => decide (r.dept = d)) = [] := by
        refine List.filter_eq_nil_iff.mpr ?_
        intro r hr hrd
        have hrd' : r.dept = d := of_decide_eq_true hrd
        have hrx : r.dept = x.dept := hrd'.trans hxd.symm
        exact hx (hrx ▸ List.mem_map_of_mem (·.dept) hr)
      rw [hnil]
      exact le_refl 1
    · rw [List.filter_cons, if_neg (by simpa using hxd)]
      exact ih hxs

/-- On a list of at most one record, the `iloc[0]`-style head read equals
the column sum. -/
theorem headActual_eq_sum_of_short {L : List Rec} (h : L.length ≤ 1) :
    ((L.head?.map (·.actual)).getD 0) = sumActual L := by
  match L with
  | [] => rfl
  | [x] => simp [sumActual]
  | x :: y :: xs => simp at h

/-- Summing a column over the per-key filtered pieces of a partition
recovers the whole sum, provided the key list is duplicate-free and
covers every record. -/
theorem sumActual_partition (ds : List String) (hnd : ds.Nodup) :
    ∀ l : List Rec, (∀ r ∈ l, r.dept ∈ ds) →
    (ds.map (fun d => sumActual (l.filter (fun r => decide (r.dept = d))))).sum
      = sumActual l := by
  induction ds with
  | nil =>
    intro l hcov
    have hl : l = [] := List.eq_nil_iff_forall_not_mem.mpr
      (fun r hr => absurd (hcov r hr) (List.not_mem_nil r.dept))
    subst hl
    rfl
  | cons d ds ih =>
    intro l hcov
    obtain ⟨hdnot, hndtl⟩ := List.nodup_cons.mp hnd
    have hrest : ∀ r ∈ l.filter (fun r => !decide (r.dept = d)), r.dept ∈ ds := by
      intro r hr
      obtain ⟨hrl, hrd⟩ := List.mem_filter.mp hr
      rcases List.mem_cons.mp (hcov r hrl) with h1 | h2
      · simp [h1] at hrd
      · exact h2
    have htail := ih hndtl (l.filter (fun r => !decide (r.dept = d))) hrest
    have hterms : ds.map
          (fun e => sumActual (l.filter (fun r => decide (r.dept = e))))
        = ds.map (fun e => sumActual
            ((l.filter (fun r => !decide (r.dept = d))).filter
              (fun r => decide (r.dept = e)))) := by
      refine List.map_congr_left ?_
      intro e he
      congr 1
      rw [List.filter_filter]
      refine (List.filter_congr ?_).symm
      intro r _
      by_cases hre : r.dept = e
      · have hed : ¬ e = d := fun hd => hdnot (hd ▸ he)
        simp [hre, hed]
      · simp [hre]
    rw [List.map_cons, List.sum_cons, hterms, htail]
    have hp := (List.filter_append_perm (fun r => decide (r.dept = d)) l).map
      (·.actual)
    unfold sumActual
    rw [← hp.sum_eq, List.map_append, List.sum_append]

/-- C7 (amended): the profit shares sum to 100 when the latest-period
total is positive AND each department has at most one AchievementRecord
at the latest period (duplicate target rows give one department several
latest-period records, of which the share computation reads only the
first while the total counts all — see `C7_counterexample`). -/
theorem C7_share_sum (t : TargetTable) (a : ActualTable) (today : Date)
    (res : ProcResult) (h : process_data t a today = some res)
    (hnd : ((res.chart.filter (fun r =>
        decide (r.month = latestMonth res.chart))).map (·.dept)).Nodup)
    (hpos : 0 < totalRecent res.chart (latestMonth res.chart)) :
    (res.summary.map (·.share)).sum = 100 := by
  have hfun : ∀ dn : String,
      (mkSummary today (latestMonth res.chart)
        (totalRecent res.chart (latestMonth res.chart)) dn
        (res.chart.filter (fun r => decide (r.dept = dn)))).share
      = sumActual ((res.chart.filter (fun r =>
          decide (r.month = latestMonth res.chart))).filter
            (fun r => decide (r.dept = dn)))
        * (100 / totalRecent res.chart (latestMonth res.chart)) := by
    intro dn
    rw [mkSummary_share, if_pos hpos, mkSummary_recentActual]
    have hlen : (((res.chart.filter
        (fun r => decide (r.dept = dn))).insertionSort rRec).filter
          (fun r => decide (r.month = latestMonth res.chart))).length ≤ 1 := by
      rw [((List.perm_insertionSort rRec _).filter _).length_eq,
        List.filter_filter]
      have h1 := length_filter_key_le_one hnd dn
      rw [List.filter_filter] at h1
      calc (res.chart.filter (fun a =>
              decide (a.month = latestMonth res.chart)
                && decide (a.dept = dn))).length
          = (res.chart.filter (fun a => decide (a.dept = dn)
              && decide (a.month = latestMonth res.chart))).length := by
            rw [List.filter_congr (fun x _ => Bool.and_comm _ _)]
        _ ≤ 1 := h1
    rw [headActual_eq_sum_of_short hlen, sumActual_group_filter,
      List.filter_filter]
    rw [div_mul_eq_mul_div, mul_div_assoc]
  rw [(process_data_eq_some h).1,
    ((pandasSortDesc_perm (summaryPre res.chart today)).map (·.share)).sum_eq]
  unfold summaryPre
  rw [List.map_map]
  have hcomp : ((·.share) ∘ fun dn => mkSummary today (latestMonth res.chart)
      (totalRecent res.chart (latestMonth res.chart)) dn
      (res.chart.filter (fun r => decide (r.dept = dn))))
      = fun dn => sumActual ((res.chart.filter (fun r =>
          decide (r.month = latestMonth res.chart))).filter
            (fun r => decide (r.dept = dn)))
        * (100 / totalRecent res.chart (latestMonth res.chart)) :=
    funext hfun
  rw [hcomp, List.sum_map_mul_right]
  have hnodupDepts : (sortedDepts res.chart).Nodup :=
    (List.perm_insertionSort rStr _).nodup_iff.mpr
      (List.nodup_dedup (res.chart.map (·.dept)))
  have hcov : ∀ r ∈ res.chart.filter (fun r =>
      decide (r.month = latestMonth res.chart)),
      r.dept ∈ sortedDepts res.chart := by
    intro r hr
    refine (List.mem_insertionSort rStr).mpr (List.mem_dedup.mpr ?_)
    exact List.mem_map_of_mem (·.dept) (List.mem_filter.mp hr).1
  rw [sumActual_partition (sortedDepts res.chart) hnodupDepts _ hcov]
  show totalRecent res.chart (latestMonth res.chart)
    * (100 / totalRecent res.chart (latestMonth res.chart)) = 100
  rw [mul_comm]
  exact div_mul_cancel₀ 100 (ne_of_gt hpos)

theorem C7_witness : (wRes.summary.map (·.share)).sum = 100 :=
  C7_share_sum wTgt wAct wDay wRes wRun (by decide) (by decide)

/-! ### Claim C8 (amended): the stability window -/

theorem sortMonthsDesc_perm (ms : List Date) :
    List.Perm (sortMonthsDesc ms) ms :=
  (List.reverse_perm (List.insertionSort dateLe ms)).trans
    (List.perm_insertionSort dateLe ms)

theorem sortMonthsDesc_pairwise (ms : List Date) :
    (sortMonthsDesc ms).Pairwise (fun a b => dateLe b a) := by
  unfold sortMonthsDesc
  rw [List.pairwise_reverse]
  exact List.sorted_insertionSort dateLe ms

theorem getLastD_mem_date :
    ∀ (l : List Date) (d0 : Date), l ≠ [] → l.getLastD d0 ∈ l := by
  intro l
  induction l with
  | nil => intro d0 h; exact absurd rfl h
  | cons x xs ih =>
    intro d0 _
    rw [List.getLastD_cons]
    cases hxs : xs with
    | nil => subst hxs; exact List.mem_singleton.mpr rfl
    | cons y ys =>
      subst hxs
      exact List.mem_cons_of_mem x (ih x (by simp))

/-- Every record at or after the `nlargest(3).min()` cutoff lies in one of
the 3 most recent DISTINCT periods: the code's stability window is a
subset of the spec's window. -/
theorem month_mem_top3Distinct (c : List Rec) (r : Rec) (hr : r ∈ c)
    (hle : dateLe (top3Cutoff c) r.month) : r.month ∈ top3Distinct c := by
  by_contra hnot
  have hmD : r.month ∈ sortMonthsDesc (c.map (·.month)).dedup :=
    (sortMonthsDesc_perm ((c.map (·.month)).dedup)).mem_iff.mpr
      (List.mem_dedup.mpr (List.mem_map_of_mem (·.month) hr))
  unfold top3Distinct at hnot
  have hmdrop : r.month ∈ (sortMonthsDesc (c.map (·.month)).dedup).drop 3 := by
    have hmD2 : r.month ∈ (sortMonthsDesc (c.map (·.month)).dedup).take 3
        ++ (sortMonthsDesc (c.map (·.month)).dedup).drop 3 := by
      rw [List.take_append_drop]
      exact hmD
    rcases List.mem_append.mp hmD2 with h1 | h1
    · exact absurd h1 hnot
    · exact h1
  have hDnd : (sortMonthsDesc (c.map (·.month)).dedup).Nodup :=
    (sortMonthsDesc_perm ((c.map (·.month)).dedup)).nodup_iff.mpr
      (List.nodup_dedup (c.map (·.month)))
  have htake3 : ∀ d ∈ (sortMonthsDesc (c.map (·.month)).dedup).take 3,
      dateLe r.month d ∧ ¬ d = r.month := by
    intro d hd
    refine ⟨?_, ?_⟩
    · exact List.Sorted.rel_of_mem_take_of_mem_drop
        (sortMonthsDesc_pairwise ((c.map (·.month)).dedup)) hd hmdrop
    · intro hdm
      exact (List.disjoint_take_drop hDnd le_rfl) hd (hdm.symm ▸ hmdrop)
  have hlenD : 3 < (sortMonthsDesc (c.map (·.month)).dedup).length := by
    by_contra hlen
    have hnil : (sortMonthsDesc (c.map (·.month)).dedup).drop 3 = [] :=
      List.drop_eq_nil_iff.mpr (by omega)
    rw [hnil] at hmdrop
    exact List.not_mem_nil _ hmdrop
  have hlentake :
      ((sortMonthsDesc (c.map (·.month)).dedup).take 3).length = 3 := by
    rw [List.length_take]
    omega
  have hlenDS : (sortMonthsDesc (c.map (·.month)).dedup).length
      ≤ (sortMonthsDesc (c.map (·.month))).length := by
    rw [(sortMonthsDesc_perm (c.map (·.month))).length_eq,
      (sortMonthsDesc_perm ((c.map (·.month)).dedup)).length_eq]
    exact (List.dedup_sublist (c.map (·.month))).length_le
  have hlenS4 : 3 < (sortMonthsDesc (c.map (·.month))).length :=
    lt_of_lt_of_le hlenD hlenDS
  have hlentakeS : ((sortMonthsDesc (c.map (·.month))).take 3).length = 3 := by
    rw [List.length_take]
    omega
  have htkne : (sortMonthsDesc (c.map (·.month))).take 3 ≠ [] := by
    intro h0
    rw [h0] at hlentakeS
    simp at hlentakeS
  have hcutmem : top3Cutoff c ∈ (sortMonthsDesc (c.map (·.month))).take 3 :=
    getLastD_mem_date ((sortMonthsDesc (c.map (·.month))).take 3) ⟨0, 1, 1⟩ htkne
  have hsub : (sortMonthsDesc (c.map (·.month)).dedup).take 3
      ⊆ (sortMonthsDesc (c.map (·.month))).filter
        (fun d => decide (dateLe r.month d) && !(decide (d = r.month))) := by
    intro d hd
    obtain ⟨h1, h2⟩ := htake3 d hd
    refine List.mem_filter.mpr ⟨?_, ?_⟩
    · refine (sortMonthsDesc_perm (c.map (·.month))).mem_iff.mpr ?_
      have hdm : d ∈ (c.map (·.month)).dedup :=
        (sortMonthsDesc_perm ((c.map (·.month)).dedup)).mem_iff.mp
          (List.take_subset 3 _ hd)
      exact List.mem_dedup.mp hdm
    · rw [decide_eq_true h1, decide_eq_false h2]
      rfl
  have hnd3 : ((sortMonthsDesc (c.map (·.month)).dedup).take 3).Nodup :=
    (List.take_sublist 3 (sortMonthsDesc (c.map (·.month)).dedup)).nodup hDnd
  have hcount := (hnd3.subperm hsub).length_le
  rw [hlentake] at hcount
  have hdropnil : ((sortMonthsDesc (c.map (·.month))).drop 3).filter
      (fun d => decide (dateLe r.month d) && !(decide (d = r.month))) = [] := by
    refine List.filter_eq_nil_iff.mpr ?_
    intro y hy hpy
    rw [Bool.and_eq_true] at hpy
    obtain ⟨hp1, hp2⟩ := hpy
    have hmy : dateLe r.month y := of_decide_eq_true hp1
    have hym : ¬ y = r.month := by
      intro h0
      rw [h0] at hp2
      simp at hp2
    have hyc : dateLe y (top3Cutoff c) :=
      List.Sorted.rel_of_mem_take_of_mem_drop
        (sortMonthsDesc_pairwise (c.map (·.month))) hcutmem hy
    have hym2 : dateLe y r.month := by
      have h1 := hyc
      have h2 := hle
      unfold dateLe at h1 h2 ⊢
      omega
    exact hym (dateLe_antisymm hym2 hmy)
  have hsplit : (sortMonthsDesc (c.map (·.month))).filter
      (fun d => decide (dateLe r.month d) && !(decide (d = r.month)))
      = ((sortMonthsDesc (c.map (·.month))).take 3).filter
          (fun d => decide (dateLe r.month d) && !(decide (d = r.month)))
        ++ ((sortMonthsDesc (c.map (·.month))).drop 3).filter
          (fun d => decide (dateLe r.month d) && !(decide (d = r.month))) := by
    rw [← List.filter_append, List.take_append_drop]
  have hfiltereq : ((sortMonthsDesc (c.map (·.month))).take 3).filter
      (fun d => decide (dateLe r.month d) && !(decide (d = r.month)))
      = (sortMonthsDesc (c.map (·.month))).take 3 := by
    refine (List.filter_sublist _).eq_of_length ?_
    rw [hsplit, hdropnil, List.append_nil] at hcount
    have hle3 : (((sortMonthsDesc (c.map (·.month))).take 3).filter
        (fun d => decide (dateLe r.month d) && !(decide (d = r.month)))).length
        ≤ ((sortMonthsDesc (c.map (·.month))).take 3).length :=
      (List.filter_sublist _).length_le
    omega
  have hcutp : (decide (dateLe r.month (top3Cutoff c))
      && !(decide (top3Cutoff c = r.month))) = true := by
    have hmem2 := hcutmem
    rw [← hfiltereq] at hmem2
    exact (List.mem_filter.mp hmem2).2
  rw [Bool.and_eq_true] at hcutp
  obtain ⟨hc1, hc2⟩ := hcutp
  have hcm : top3Cutoff c = r.month :=
    dateLe_antisymm hle (of_decide_eq_true hc1)
  rw [hcm] at hc2
  simp at hc2

/-- C8 (amended): the CV stability metric is computed over the records
whose period is at or above `nlargest(3).min()` — the smallest of the 3
largest month values counted WITH multiplicity, so with several
departments reporting per month the window is narrower than 3 distinct
periods (see `C8_counterexample`) — every such record falling inside the
3 most recent distinct periods; the metric is skipped iff that record set
has at most one element. -/
theorem C8_stability_window (c : List Rec) :
    stabilityRates c = (c.filter
        (fun r => decide (dateLe (top3Cutoff c) r.month))).map (·.rate)
    ∧ (stabilityEmitted c = true ↔ 1 < (stabilityRates c).length)
    ∧ ∀ r ∈ c, dateLe (top3Cutoff c) r.month → r.month ∈ top3Distinct c := by
  refine ⟨rfl, ?_, ?_⟩
  · unfold stabilityEmitted
    exact decide_eq_true_iff
  · intro r hr hle
    exact month_mem_top3Distinct c r hr hle

theorem C8_witness :
    (⟨"A", ⟨2024, 3, 1⟩, 30, 100, 30⟩ : Rec).month ∈ top3Distinct c8Chart :=
  (C8_stability_window c8Chart).2.2 ⟨"A", ⟨2024, 3, 1⟩, 30, 100, 30⟩
    (by decide) (by decide)

end GP
